import Mathlib

set_option autoImplicit false

namespace Vocal

/-!
Shallow embedding of the model-lifecycle core of the `vocal` repository:
the model registry (`vocal_core/registry/base.py`), the metadata cache
(`vocal_core/registry/metadata_cache.py`) and the per-capability adapter
pools with keep-alive eviction
(`vocal_api/services/transcription_service.py`, `tts_service.py`).

Pure control flow is translated into executable Lean functions; the
filesystem, the provider's download stream and the engine's load/unload
behaviour enter as explicit parameters describing one concrete run.
-/

/-- Model availability status, embedding the `ModelStatus` enum of
`vocal_core/registry/model_info.py`. -/
inductive ModelStatus where
  | available
  | downloading
  | not_downloaded
  | error
  deriving DecidableEq, Repr

/-- Model task kind, embedding the `ModelTask` enum of
`vocal_core/registry/model_info.py`. -/
inductive ModelTask where
  | stt
  | tts
  deriving DecidableEq, Repr

/-- String value of a task, embedding the `.value` of the Python
string-enum (`"stt"` / `"tts"`). -/
def ModelTask.value : ModelTask → String
  | ModelTask.stt => "stt"
  | ModelTask.tts => "tts"

/-! ## Model id escaping (`ModelRegistry._get_model_path` / `list_models`) -/

/-- Escaping of a model id into a storage directory name:
`model_id.replace("/", "--")` from `ModelRegistry._get_model_path`
(the same escaping is used by `ModelMetadataCache._get_cache_path`).
Python `str.replace` with a one-character pattern replaces every
occurrence of the character. -/
def safeIdChars : List Char → List Char
  | [] => []
  | c :: rest => if c = '/' then '-' :: '-' :: safeIdChars rest else c :: safeIdChars rest

/-- Decoding of a storage directory name back into a model id:
`model_dir.name.replace("--", "/")` from `ModelRegistry.list_models`
(the same decoding is used by `ModelMetadataCache.list_cached`).
Python `str.replace` scans left to right and replaces non-overlapping
occurrences of `"--"`. -/
def decodeDirChars : List Char → List Char
  | [] => []
  | [c] => [c]
  | c1 :: c2 :: rest =>
    if c1 = '-' ∧ c2 = '-' then '/' :: decodeDirChars rest
    else c1 :: decodeDirChars (c2 :: rest)

/-- Ids on which the escaping is actually reversible: no two adjacent
hyphens and no hyphen immediately followed by a slash anywhere. -/
def goodId : List Char → Bool
  | [] => true
  | [_] => true
  | c1 :: c2 :: rest =>
    if c1 = '-' ∧ (c2 = '-' ∨ c2 = '/') then false
    else goodId (c2 :: rest)

/-- String-level wrapper of `safeIdChars`: the `safe_id` local of
`ModelRegistry._get_model_path`. -/
def safeId (s : String) : String := ⟨safeIdChars s.data⟩

/-- String-level wrapper of `decodeDirChars`: the `model_id` decoding in
`ModelRegistry.list_models`. -/
def decodeDirName (s : String) : String := ⟨decodeDirChars s.data⟩

/-! ## Download orchestration (`ModelRegistry.download_model`) -/

/-- Outcome of one provider download run, seen from the registry:
the `(downloaded_bytes, total_bytes)` chunks the provider's
`download_model` stream yielded before finishing or raising, whether the
stream raised after those chunks, the result of `verify_model`
(`none` models `verify_model` itself raising), and whether the optional
`fetch_metadata_from_hf` / `metadata_cache.set` step raised. -/
structure ProviderRun where
  chunks : List (Nat × Nat)
  streamRaises : Bool
  verifyResult : Option Bool
  metadataRaises : Bool
  deriving DecidableEq, Repr

/-- Value of the Python loop variable `total` after the `async for` loop:
the total of the last chunk, or unbound (`none`) when the provider
yielded no chunks at all. -/
def lastTotal (chunks : List (Nat × Nat)) : Option Nat :=
  chunks.getLast?.map Prod.snd

/-- Terminal event of `ModelRegistry.download_model`, following the
control flow of `base.py` lines 124-145: a raise in the provider stream,
a raise in `verify_model`, a failed verification, a raise in the metadata
step, or an unbound `total` (NameError when the provider yielded no
chunks) all end in the `(0, 0, error)` event produced either by the
`else` branch or by the `except Exception` handler; otherwise the
generator emits `(total, total, available)`. -/
def terminalEvent (run : ProviderRun) : Nat × Nat × ModelStatus :=
  if run.streamRaises then (0, 0, ModelStatus.error)
  else
    match run.verifyResult with
    | none => (0, 0, ModelStatus.error)
    | some false => (0, 0, ModelStatus.error)
    | some true =>
      if run.metadataRaises then (0, 0, ModelStatus.error)
      else
        match lastTotal run.chunks with
        | none => (0, 0, ModelStatus.error)
        | some t => (t, t, ModelStatus.available)

/-- Full event trace of `ModelRegistry.download_model` for one provider
run: the initial `(0, 0, downloading)` event, one `downloading` event per
provider chunk, then the single terminal event. -/
def downloadEvents (run : ProviderRun) : List (Nat × Nat × ModelStatus) :=
  ((0, 0, ModelStatus.downloading) ::
    run.chunks.map (fun p => (p.1, p.2, ModelStatus.downloading))) ++ [terminalEvent run]

/-- `ModelRegistry.download_model`: the `ValueError` for an unknown
provider name is raised before the `try` block and reaches the consumer;
for a configured provider the consumer only ever sees the event trace. -/
def download_model (providerNames : List String) (providerName : String)
    (run : ProviderRun) : Except String (List (Nat × Nat × ModelStatus)) :=
  if providerName ∈ providerNames then Except.ok (downloadEvents run)
  else Except.error ("Unknown provider: " ++ providerName)

/-! ## Metadata cache (`ModelMetadataCache`, metadata_cache.py) -/

/-- On-disk state of one metadata cache document, as observed by
`ModelMetadataCache.get`: missing file, a file whose open/read raises
`OSError`, a file whose content fails `json.load` with
`json.JSONDecodeError`, or a file holding a parsed document. -/
inductive CacheFile (α : Type) where
  | absent
  | unreadable
  | malformed
  | parsed (doc : α)
  deriving DecidableEq, Repr

/-- `ModelMetadataCache.get`: resolves the cache path
(`safe_name + ".json"` under the cache directory); a missing file returns
`None`, and both caught exception classes (`json.JSONDecodeError`,
`OSError`) also return `None`; only a parsed document is returned. -/
def metadataCacheGet {α : Type} (files : String → CacheFile α) (modelId : String) : Option α :=
  match files (safeId modelId ++ ".json") with
  | CacheFile.absent => none
  | CacheFile.unreadable => none
  | CacheFile.malformed => none
  | CacheFile.parsed d => some d

/-- `ModelMetadataCache.delete`: unlinks the document and returns `true`
when it exists, returns `false` when it does not (the `OSError` path of a
failing unlink is not modelled; unlink is taken to succeed). -/
def metadataCacheDelete (docs : List String) (modelId : String) : Bool × List String :=
  if safeId modelId ∈ docs then
    (true, docs.filter (fun d => d ≠ safeId modelId))
  else (false, docs)

/-! ## Registry filesystem state (`ModelRegistry`) -/

/-- Relevant on-disk state of one registry: the names of the immediate
subdirectories of the storage root, and the stems of the `.json`
documents in the metadata directory. -/
structure RegistryFS where
  modelDirs : List String
  metadataDocs : List String
  deriving DecidableEq, Repr

/-- `ModelRegistry.get_model_path`: the storage path when the escaped
directory exists, `None` otherwise (the path is represented by the
directory name). -/
def get_model_path (fs : RegistryFS) (modelId : String) : Option String :=
  if safeId modelId ∈ fs.modelDirs then some (safeId modelId) else none

/-- `ModelRegistry.delete_model`: returns `false` when the storage
directory does not exist; otherwise removes the directory tree
(`shutil.rmtree`), deletes the cache document (its boolean result is
ignored) and returns `true`. IO failures of `rmtree` (the
`except Exception` path returning `false`) are not modelled; removal is
taken to succeed. -/
def delete_model (fs : RegistryFS) (modelId : String) : Bool × RegistryFS :=
  if safeId modelId ∈ fs.modelDirs then
    (true,
      ⟨fs.modelDirs.filter (fun d => d ≠ safeId modelId),
        (metadataCacheDelete fs.metadataDocs modelId).2⟩)
  else (false, fs)

/-! ## Local listing (`ModelRegistry.list_models`) -/

/-- One immediate child of the storage root as seen by
`self.storage_path.iterdir()`: its name, whether it is a directory, and
the sum of the sizes of the files below it (the value of the
`total_size` generator expression). -/
structure StorageEntry where
  name : String
  isDir : Bool
  treeSize : Nat
  deriving DecidableEq, Repr

/-- Fields of a cached metadata document that `list_models` reads with
`.get(...)`; `none` models a missing key, making the code's default
apply. Provider and backend are carried as their string enum values. -/
structure CachedMeta where
  name : Option String
  provider : Option String
  description : Option String
  size : Option Nat
  parameters : Option String
  languages : Option (List String)
  backend : Option String
  task : Option ModelTask
  deriving DecidableEq, Repr

/-- Model entry produced by `list_models` (the `ModelInfo` fields the
scan computes; presentation-only fields such as the human-readable size
string, which goes through floating-point formatting, are omitted).
`localPath` carries the directory name standing for `str(model_dir)`. -/
structure ListedModel where
  id : String
  name : String
  provider : String
  description : Option String
  size : Nat
  parameters : String
  languages : List String
  backend : String
  status : ModelStatus
  task : ModelTask
  localPath : String
  deriving DecidableEq, Repr

/-- `model_id.split("/")[-1]`: the characters after the last slash
(Python `split` never returns an empty list, so the indexing is total). -/
def lastComponent (s : String) : String :=
  ⟨(s.data.reverse.takeWhile (fun c => c != '/')).reverse⟩

/-- Entry built from a cached metadata document
(`list_models`, the `if cached_metadata:` branch). -/
def modelFromCache (modelId dirName : String) (m : CachedMeta) : ListedModel :=
  { id := modelId
    name := m.name.getD (lastComponent modelId)
    provider := m.provider.getD "huggingface"
    description := m.description
    size := m.size.getD 0
    parameters := m.parameters.getD "Unknown"
    languages := m.languages.getD []
    backend := m.backend.getD "transformers"
    status := ModelStatus.available
    task := m.task.getD ModelTask.stt
    localPath := dirName }

/-- Entry derived from the filesystem when no cached document exists
(`list_models`, the `else` branch summing file sizes). -/
def fallbackModel (modelId dirName : String) (treeSize : Nat) : ListedModel :=
  { id := modelId
    name := lastComponent modelId
    provider := "huggingface"
    description := none
    size := treeSize
    parameters := "Unknown"
    languages := []
    backend := "transformers"
    status := ModelStatus.available
    task := ModelTask.stt
    localPath := dirName }

/-- Entry the scan builds for one storage subdirectory: preferring the
cached metadata document, falling back to the filesystem-derived entry. -/
def entryModel (cache : String → Option CachedMeta) (e : StorageEntry) : ListedModel :=
  match cache (decodeDirName e.name) with
  | some m => modelFromCache (decodeDirName e.name) e.name m
  | none => fallbackModel (decodeDirName e.name) e.name e.treeSize

/-- Task filter of `list_models`
(`if task and model.task.value != task: continue`): a `None` or empty
filter keeps everything, mirroring Python truthiness. -/
def taskKeeps (task : Option String) (m : ListedModel) : Bool :=
  match task with
  | none => true
  | some t => t == "" || m.task.value == t

/-- Scan loop of `ModelRegistry.list_models`: skip entries that are not
directories and the provider's internal `"hf"` download cache directory;
decode the directory name into a model id; build the entry; apply the
task filter; keep storage order. -/
def listModelsScan (cache : String → Option CachedMeta) (task : Option String) :
    List StorageEntry → List ListedModel
  | [] => []
  | e :: rest =>
    if ¬ e.isDir ∨ e.name = "hf" then listModelsScan cache task rest
    else if taskKeeps task (entryModel cache e) then
      entryModel cache e :: listModelsScan cache task rest
    else listModelsScan cache task rest

/-- `ModelRegistry.list_models` (the unused `provider` parameter of the
Python signature is dropped): after the scan, a truthy status filter
other than `"available"` empties the result. -/
def list_models (entries : List StorageEntry) (cache : String → Option CachedMeta)
    (task : Option String) (statusFilter : Option String) : List ListedModel :=
  let allModels := listModelsScan cache task entries
  match statusFilter with
  | none => allModels
  | some sf => if sf ≠ "" ∧ sf ≠ "available" then [] else allModels

/-! ## Adapter pool state and keep-alive sweep
(`TranscriptionService._cleanup_loop`, `TTSService._cleanup_loop`) -/

/-- Ordered association-list lookup, the read of a Python dict entry. -/
def findEntry {β : Type} (k : String) : List (String × β) → Option β
  | [] => none
  | p :: rest => if p.1 = k then some p.2 else findEntry k rest

/-- Removal of a key, the effect of Python `del d[k]` on the dict's
insertion-ordered entries. -/
def removeEntry {β : Type} (k : String) (l : List (String × β)) : List (String × β) :=
  l.filter (fun p => p.1 ≠ k)

/-- Update-or-append, the effect of Python `d[k] = v` on the dict's
insertion-ordered entries. -/
def setEntry {β : Type} (k : String) (v : β) : List (String × β) → List (String × β)
  | [] => [(k, v)]
  | p :: rest => if p.1 = k then (k, v) :: rest else p :: setEntry k v rest

/-- Mutable pool state of one service: `self.adapters` (model id to the
loaded engine instance, represented by an opaque token) and
`self.last_used` (model id to `time.time()` timestamp), both
insertion-ordered as Python dicts are. -/
structure PoolState where
  adapters : List (String × Nat)
  lastUsed : List (String × Int)
  deriving DecidableEq, Repr

/-- Ids collected by the first loop of a `_cleanup_loop` tick
(`models_to_unload`): every id in `self.last_used` whose idle time
exceeds `keep_alive_seconds`. -/
def expiredIds (now keepAlive : Int) (s : PoolState) : List String :=
  (s.lastUsed.filter (fun p => keepAlive < now - p.2)).map Prod.fst

/-- Second loop of a `_cleanup_loop` tick: for each collected id still in
`self.adapters`, await `unload_model()` and then delete the id from both
dicts. `fails id = true` means `unload_model` raises for that id; the
exception propagates out of the `for` loop (the remaining ids are not
processed), which the returned flag records. -/
def evictExpired (fails : String → Bool) : List String → PoolState → PoolState × Bool
  | [], s => (s, false)
  | id :: rest, s =>
    match findEntry id s.adapters with
    | none => evictExpired fails rest s
    | some _ =>
      if fails id then (s, true)
      else evictExpired fails rest ⟨removeEntry id s.adapters, removeEntry id s.lastUsed⟩

/-- One tick of `_cleanup_loop` at clock value `now`: collect the expired
ids, evict them in order; the surrounding `except Exception: pass`
swallows any raise, so the tick always yields a state and the
`while True` loop continues. -/
def cleanupTick (fails : String → Bool) (now keepAlive : Int) (s : PoolState) : PoolState :=
  (evictExpired fails (expiredIds now keepAlive s) s).1

/-- Successive iterations of the `while True` sweep loop, one tick per
clock reading in `times` (the clock advances between ticks via
`asyncio.sleep(60)` and `time.time()`). -/
def cleanupRun (fails : String → Bool) (keepAlive : Int) : List Int → PoolState → PoolState
  | [], s => s
  | now :: rest, s => cleanupRun fails keepAlive rest (cleanupTick fails now keepAlive s)

/-! ## Concurrent acquisition (`TranscriptionService._get_or_create_adapter`,
`TTSService._get_or_create_adapter`) -/

/-- Position of one task inside `_get_or_create_adapter` for a fixed
model id. Under asyncio, code between `await` points runs atomically, so
the method splits into two atomic blocks: the membership check plus
adapter construction (suspending at `await adapter.load_model(...)`), and
the store into `self.adapters` plus the `return self.adapters[model_id]`
read. A task that finds the id present returns in a single block. -/
inductive AcqTask where
  | ready
  | loading (inst : Nat)
  | done (ret : Nat)
  deriving DecidableEq, Repr

/-- Interleaving state of two tasks concurrently inside
`_get_or_create_adapter` for the same model id: the `self.adapters` entry
for that id, the number of `load_model` invocations so far, a fresh
instance counter, and both task positions. -/
structure AcqState where
  pool : Option Nat
  loads : Nat
  nextInst : Nat
  taskA : AcqTask
  taskB : AcqTask
  deriving DecidableEq, Repr

/-- One atomic block of one task, as a function of the shared pool entry:
a `ready` task that finds the id present returns it at once; a `ready`
task that finds it absent constructs a fresh adapter and invokes
`load_model` (counted), suspending; a `loading` task resumes by storing
its instance and returning the entry it just stored. -/
def stepTask (pool : Option Nat) (loads nextInst : Nat) :
    AcqTask → Option Nat × Nat × Nat × AcqTask
  | AcqTask.ready =>
    match pool with
    | some inst => (pool, loads, nextInst, AcqTask.done inst)
    | none => (pool, loads + 1, nextInst + 1, AcqTask.loading nextInst)
  | AcqTask.loading inst => (some inst, loads, nextInst, AcqTask.done inst)
  | AcqTask.done r => (pool, loads, nextInst, AcqTask.done r)

/-- Scheduler step: run one atomic block of task A (`true`) or task B
(`false`). -/
def acqStep (s : AcqState) (who : Bool) : AcqState :=
  if who then
    let r := stepTask s.pool s.loads s.nextInst s.taskA
    { pool := r.1, loads := r.2.1, nextInst := r.2.2.1, taskA := r.2.2.2, taskB := s.taskB }
  else
    let r := stepTask s.pool s.loads s.nextInst s.taskB
    { pool := r.1, loads := r.2.1, nextInst := r.2.2.1, taskA := s.taskA, taskB := r.2.2.2 }

/-- Run a whole schedule of atomic blocks. -/
def acqRun : List Bool → AcqState → AcqState
  | [], s => s
  | w :: rest, s => acqRun rest (acqStep s w)

/-- Initial state: the model id is not yet loaded and both callers are
about to enter `_get_or_create_adapter`. -/
def acqInit : AcqState :=
  { pool := none, loads := 0, nextInst := 0, taskA := AcqTask.ready, taskB := AcqTask.ready }

/-! ## Service request paths (`TranscriptionService.transcribe`,
`TTSService.synthesize`) -/

/-- Registry-side environment a service request sees: which ids some
provider resolves (`registry.get_model` returns a descriptor), the local
filesystem, and the task declared in each resolved descriptor. -/
structure ServiceEnv where
  knownModels : List String
  fs : RegistryFS
  taskOf : String → ModelTask

/-- Pool state of one service together with the fresh-instance counter
used to represent newly constructed adapter objects. -/
structure SvcPoolState where
  adapters : List (String × Nat)
  lastUsed : List (String × Int)
  nextInst : Nat
  deriving DecidableEq, Repr

/-- Message of the `ValueError` raised by `TranscriptionService.transcribe`
and `TTSService.synthesize` when the model has no local directory: it
names the model id and the download endpoint. -/
def notDownloadedMsg (modelId : String) : String :=
  "Model " ++ modelId ++ " not downloaded. Download it first: POST /v1/models/"
    ++ modelId ++ "/download"

/-- Sequential (single-request) semantics of `_get_or_create_adapter`
followed by the `self.last_used[model_id] = time.time()` stamp. -/
def getOrCreateAndStamp (modelId : String) (now : Int) (s : SvcPoolState) :
    Nat × SvcPoolState :=
  match findEntry modelId s.adapters with
  | some inst =>
    (inst, { s with lastUsed := setEntry modelId now s.lastUsed })
  | none =>
    (s.nextInst,
      { adapters := setEntry modelId s.nextInst s.adapters
        lastUsed := setEntry modelId now s.lastUsed
        nextInst := s.nextInst + 1 })

/-- Model-resolution prefix of `TranscriptionService.transcribe`:
`registry.get_model` (unknown id raises "not found"), then
`registry.get_model_path` (missing directory raises the not-downloaded
`ValueError`), then adapter acquisition and the last-used stamp. The
result is the acquired engine instance or the raised error message. -/
def transcribeAcquire (env : ServiceEnv) (now : Int) (s : SvcPoolState)
    (modelId : String) : Except String Nat × SvcPoolState :=
  if modelId ∈ env.knownModels then
    match get_model_path env.fs modelId with
    | none => (Except.error (notDownloadedMsg modelId), s)
    | some _ =>
      let r := getOrCreateAndStamp modelId now s
      (Except.ok r.1, r.2)
  else (Except.error ("Model " ++ modelId ++ " not found in registry"), s)

/-- Model-resolution prefix of `TTSService.synthesize`: the `"pyttsx3"`
id short-circuits to the simple system adapter; otherwise
`registry.get_model` (not found), the task check, `registry.get_model_path`
(the not-downloaded `ValueError`), then adapter acquisition and the
last-used stamp. -/
def synthesizeAcquire (env : ServiceEnv) (now : Int) (s : SvcPoolState)
    (modelId : String) : Except String Nat × SvcPoolState :=
  if modelId = "pyttsx3" then
    let r := getOrCreateAndStamp modelId now s
    (Except.ok r.1, r.2)
  else if modelId ∈ env.knownModels then
    if env.taskOf modelId ≠ ModelTask.tts then
      (Except.error ("Model " ++ modelId ++ " is not a TTS model"), s)
    else
      match get_model_path env.fs modelId with
      | none => (Except.error (notDownloadedMsg modelId), s)
      | some _ =>
        let r := getOrCreateAndStamp modelId now s
        (Except.ok r.1, r.2)
  else (Except.error ("Model " ++ modelId ++ " not found in registry"), s)

/-! ## Helper lemmas -/

/-- Case analysis of the terminal download event: it is an error event,
or an available event preceded by a successful verification. -/
theorem terminalEvent_status (run : ProviderRun) :
    (terminalEvent run).2.2 = ModelStatus.error ∨
      ((terminalEvent run).2.2 = ModelStatus.available ∧ run.verifyResult = some true) := by
  unfold terminalEvent
  by_cases hs : run.streamRaises
  · simp [hs]
  · simp only [hs, if_false, Bool.false_eq_true]
    cases hv : run.verifyResult with
    | none => simp
    | some b =>
      cases b with
      | false => simp
      | true =>
        by_cases hm : run.metadataRaises
        · simp [hm]
        · cases ht : lastTotal run.chunks with
          | none => simp [hm, ht]
          | some t => simp [hm, ht]

/-- Well-formedness of an id is inherited by its tail. -/
theorem goodId_tail {c : Char} {l : List Char} (h : goodId (c :: l) = true) :
    goodId l = true := by
  cases l with
  | nil => rfl
  | cons c2 r =>
    simp only [goodId] at h
    split at h
    · exact absurd h (by simp)
    · exact h

/-- In a well-formed id, a hyphen is last or followed by a character that
is neither a hyphen nor a slash. -/
theorem goodId_dash {l : List Char} (h : goodId ('-' :: l) = true) :
    l = [] ∨ ∃ c2 r, l = c2 :: r ∧ c2 ≠ '-' ∧ c2 ≠ '/' := by
  cases l with
  | nil => exact Or.inl rfl
  | cons c2 r =>
    refine Or.inr ⟨c2, r, rfl, ?_, ?_⟩ <;> intro hc <;> subst hc <;> simp [goodId] at h

/-- Decoding does not touch a leading character other than a hyphen. -/
theorem decode_cons_of_ne {c : Char} (hc : c ≠ '-') (l : List Char) :
    decodeDirChars (c :: l) = c :: decodeDirChars l := by
  cases l with
  | nil => rfl
  | cons c2 r => simp [decodeDirChars, hc]

/-- Decoding does not touch a leading hyphen that is not followed by a
second hyphen. -/
theorem decode_dash_cons {c2 : Char} (hc : c2 ≠ '-') (r : List Char) :
    decodeDirChars ('-' :: c2 :: r) = '-' :: decodeDirChars (c2 :: r) := by
  simp [decodeDirChars, hc]

/-- A decoded name without a slash was left unchanged by the decoding. -/
theorem decode_self_of_no_slash :
    ∀ (l : List Char), '/' ∉ decodeDirChars l → decodeDirChars l = l
  | [] => fun _ => rfl
  | [c] => fun _ => rfl
  | c1 :: c2 :: rest => fun h => by
    by_cases hc : c1 = '-' ∧ c2 = '-'
    · rw [show decodeDirChars (c1 :: c2 :: rest) = '/' :: decodeDirChars rest by
        simp [decodeDirChars, hc]] at h
      exact absurd (List.mem_cons_self _ _) h
    · rw [show decodeDirChars (c1 :: c2 :: rest) = c1 :: decodeDirChars (c2 :: rest) by
        simp [decodeDirChars, hc]] at h ⊢
      rw [decode_self_of_no_slash (c2 :: rest) (fun hm => h (List.mem_cons_of_mem _ hm))]

/-- Only the directory name `"hf"` itself decodes to the model id `"hf"`. -/
theorem decodeDirName_eq_hf {n : String} (h : decodeDirName n = "hf") : n = "hf" := by
  cases n with
  | mk l =>
    have hd : decodeDirChars l = "hf".data := congrArg String.data h
    have hns : '/' ∉ decodeDirChars l := by rw [hd]; decide
    rw [decode_self_of_no_slash l hns] at hd
    exact congrArg String.mk hd

/-- The id of a scan entry is the decoded directory name. -/
theorem entryModel_id (cache : String → Option CachedMeta) (e : StorageEntry) :
    (entryModel cache e).id = decodeDirName e.name := by
  unfold entryModel
  cases cache (decodeDirName e.name) <;> rfl

/-- The local path of a scan entry is the directory name. -/
theorem entryModel_localPath (cache : String → Option CachedMeta) (e : StorageEntry) :
    (entryModel cache e).localPath = e.name := by
  unfold entryModel
  cases cache (decodeDirName e.name) <;> rfl

/-- Provenance of a scan result: each produced model comes from a
directory entry that is not named `"hf"`. -/
theorem listModelsScan_mem (cache : String → Option CachedMeta) (task : Option String) :
    ∀ (entries : List StorageEntry), ∀ m ∈ listModelsScan cache task entries,
      ∃ e ∈ entries, e.isDir ∧ e.name ≠ "hf" ∧
        m.id = decodeDirName e.name ∧ m.localPath = e.name
  | [], m, hm => absurd hm (by simp [listModelsScan])
  | e :: rest, m, hm => by
    rw [listModelsScan] at hm
    split at hm
    · rcases listModelsScan_mem cache task rest m hm with ⟨e', he', h⟩
      exact ⟨e', List.mem_cons_of_mem _ he', h⟩
    · rename_i hkeep
      push_neg at hkeep
      split at hm
      · rcases List.mem_cons.mp hm with hme | hm'
        · subst hme
          exact ⟨e, List.mem_cons_self _ _, hkeep.1, hkeep.2,
            (entryModel_id cache e).symm ▸ entryModel_id cache e,
            entryModel_localPath cache e⟩
        · rcases listModelsScan_mem cache task rest m hm' with ⟨e', he', h⟩
          exact ⟨e', List.mem_cons_of_mem _ he', h⟩
      · rcases listModelsScan_mem cache task rest m hm with ⟨e', he', h⟩
        exact ⟨e', List.mem_cons_of_mem _ he', h⟩

/-- With no task filter the scan enumerates exactly the non-`"hf"`
directory entries, in storage order. -/
theorem listModelsScan_map_id (cache : String → Option CachedMeta) :
    ∀ (entries : List StorageEntry),
      (listModelsScan cache none entries).map (fun m => m.id) =
        (entries.filter (fun e => e.isDir && e.name != "hf")).map
          (fun e => decodeDirName e.name)
  | [] => rfl
  | e :: rest => by
    rw [listModelsScan]
    by_cases hskip : ¬ e.isDir ∨ e.name = "hf"
    · rw [if_pos hskip]
      have hf : (e.isDir && e.name != "hf") = false := by
        rcases hskip with h | h
        · simp [Bool.eq_false_iff.mpr h]
        · simp [h]
      rw [List.filter_cons, hf]
      exact listModelsScan_map_id cache rest
    · rw [if_neg hskip]
      push_neg at hskip
      have hf : (e.isDir && e.name != "hf") = true := by
        simp [hskip.1, hskip.2]
      rw [if_pos (show taskKeeps none (entryModel cache e) = true from rfl)]
      rw [List.filter_cons, hf]
      simp [entryModel_id, listModelsScan_map_id cache rest]

/-! ## C1 -/

/-- C1: for every invocation of `download_model` with a configured
provider, the consumer sees an event sequence rather than a raised
exception; the sequence is non-empty, every event before the last has
status `downloading`, and the single last event is terminal — `available`
(only after a successful verification) or `error`. -/
theorem download_model_stream_total_with_single_terminal
    (providerNames : List String) (providerName : String) (run : ProviderRun)
    (hconf : providerName ∈ providerNames) :
    ∃ evs, download_model providerNames providerName run = Except.ok evs ∧
      evs ≠ [] ∧
      (∀ e ∈ evs.dropLast, e.2.2 = ModelStatus.downloading) ∧
      ∃ tl, evs.getLast? = some tl ∧
        (tl.2.2 = ModelStatus.available ∨ tl.2.2 = ModelStatus.error) ∧
        (tl.2.2 = ModelStatus.available → run.verifyResult = some true) := by
  refine ⟨downloadEvents run, ?_, ?_, ?_, terminalEvent run, ?_, ?_, ?_⟩
  · simp [download_model, hconf]
  · simp [downloadEvents]
  · intro e he
    rw [downloadEvents, List.dropLast_concat] at he
    rcases List.mem_cons.mp he with h | h
    · rw [h]
    · rcases List.mem_map.mp h with ⟨p, _, hp⟩
      rw [← hp]
  · rw [downloadEvents]
    exact List.getLast?_concat _
  · rcases terminalEvent_status run with h | ⟨h, _⟩
    · exact Or.inr h
    · exact Or.inl h
  · intro ha
    rcases terminalEvent_status run with h | ⟨_, hv⟩
    · exact absurd (ha.symm.trans h) (by decide)
    · exact hv

/-- Witness for C1 at a concrete configured provider and a concrete
two-chunk run. -/
theorem download_model_stream_total_with_single_terminal_witness :
    "huggingface" ∈ ["huggingface"] ∧
      ∃ evs, download_model ["huggingface"] "huggingface"
          ⟨[(400, 1000), (1000, 1000)], false, some true, false⟩ = Except.ok evs ∧
        evs ≠ [] ∧
        (∀ e ∈ evs.dropLast, e.2.2 = ModelStatus.downloading) ∧
        ∃ tl, evs.getLast? = some tl ∧
          (tl.2.2 = ModelStatus.available ∨ tl.2.2 = ModelStatus.error) ∧
          (tl.2.2 = ModelStatus.available →
            (⟨[(400, 1000), (1000, 1000)], false, some true, false⟩ :
              ProviderRun).verifyResult = some true) :=
  ⟨by decide, download_model_stream_total_with_single_terminal _ _ _ (by decide)⟩

/-! ## C3 -/

/-- C3 counterexample: for the `"demo/tiny"` scenario — the provider
reports total 1000 bytes in two chunks of 400 then 600 bytes and
verification succeeds — the emitted sequence is not the claimed
three-event sequence: the generator first emits the initial
`(0, 0, downloading)` event (base.py line 125). -/
theorem download_demo_tiny_events_counterexample :
    download_model ["huggingface"] "huggingface"
        ⟨[(400, 1000), (1000, 1000)], false, some true, false⟩ ≠
      Except.ok [(400, 1000, ModelStatus.downloading), (1000, 1000, ModelStatus.downloading),
        (1000, 1000, ModelStatus.available)] := by
  intro h
  exact absurd (Except.ok.inj h) (by decide)

/-- C3 amended: the scenario's emitted sequence is exactly the initial
zero-progress event followed by the three claimed events:
`(0,0,downloading)`, `(400,1000,downloading)`, `(1000,1000,downloading)`,
`(1000,1000,available)`. -/
theorem download_demo_tiny_events_amended :
    download_model ["huggingface"] "huggingface"
        ⟨[(400, 1000), (1000, 1000)], false, some true, false⟩ =
      Except.ok [(0, 0, ModelStatus.downloading), (400, 1000, ModelStatus.downloading),
        (1000, 1000, ModelStatus.downloading), (1000, 1000, ModelStatus.available)] := rfl

/-! ## C6 -/

/-- Escaping then decoding restores any id with no two adjacent hyphens
and no hyphen immediately followed by a slash. -/
theorem safeId_roundtrip_chars :
    ∀ (l : List Char), goodId l = true → decodeDirChars (safeIdChars l) = l := by
  intro l
  induction l with
  | nil => intro _; rfl
  | cons c rest ih =>
    intro h
    by_cases hc : c = '/'
    · subst hc
      rw [show safeIdChars ('/' :: rest) = '-' :: '-' :: safeIdChars rest by
        simp [safeIdChars]]
      rw [show decodeDirChars ('-' :: '-' :: safeIdChars rest) =
          '/' :: decodeDirChars (safeIdChars rest) by simp [decodeDirChars]]
      rw [ih (goodId_tail h)]
    · rw [show safeIdChars (c :: rest) = c :: safeIdChars rest by simp [safeIdChars, hc]]
      by_cases hdash : c = '-'
      · subst hdash
        rcases goodId_dash h with hrest | ⟨c2, r, hrest, hc2d, hc2s⟩
        · subst hrest; rfl
        · subst hrest
          rw [show safeIdChars (c2 :: r) = c2 :: safeIdChars r by
            simp [safeIdChars, hc2s]]
          rw [decode_dash_cons hc2d]
          rw [show c2 :: safeIdChars r = safeIdChars (c2 :: r) by
            simp [safeIdChars, hc2s]]
          rw [ih (goodId_tail h)]
      · rw [decode_cons_of_ne hdash, ih (goodId_tail h)]

/-- C6 counterexample: the escaping is not reversible for every model id.
The id `"a--b"` escapes to the directory name `"a--b"`, which decodes to
`"a/b"`, not to the original id (the escaping is not injective:
`"a/b"` and `"a--b"` share the directory name `"a--b"`). -/
theorem escaping_not_reversible_counterexample :
    decodeDirName (safeId "a--b") ≠ "a--b" := by decide

/-- C6 amended: for every model id with no two adjacent hyphens and no
hyphen immediately followed by a slash (all hub-style `org/name` ids are
of this form), escaping the id to a storage directory name and decoding
that name back yields the original id. -/
theorem escaping_reversible_on_good_ids (s : String) (h : goodId s.data = true) :
    decodeDirName (safeId s) = s := by
  cases s with
  | mk l => exact congrArg String.mk (safeId_roundtrip_chars l h)

/-- Witness for the amended C6 at a concrete hub-style id. -/
theorem escaping_reversible_on_good_ids_witness :
    goodId "openai/whisper-tiny".data = true ∧
      decodeDirName (safeId "openai/whisper-tiny") = "openai/whisper-tiny" :=
  ⟨by decide, escaping_reversible_on_good_ids _ (by decide)⟩

/-! ## C2 -/

/-- C2 counterexample: `_get_or_create_adapter` holds no per-id load
guard, so under the interleaving A-check, B-check, A-store, B-store both
tasks find the id absent before either stores: `load_model` is invoked
twice and the callers return handles to two different engine instances
(task A the instance it stored, task B the instance that overwrote it). -/
theorem acquire_concurrent_two_loads_counterexample :
    (acqRun [true, false, true, false] acqInit).loads = 2 ∧
      (acqRun [true, false, true, false] acqInit).taskA = AcqTask.done 0 ∧
      (acqRun [true, false, true, false] acqInit).taskB = AcqTask.done 1 := by decide

/-- C2 amended: two acquire calls for an unloaded id that do not
interleave — the second enters `_get_or_create_adapter` only after the
first has completed — invoke `load_model` exactly once and both return
the same engine instance; the claimed guarantee for interleaved
concurrent calls does not hold (no per-id load guard exists). -/
theorem acquire_sequential_one_load (w : Bool) :
    ∃ r, (acqRun [w, w, !w] acqInit).loads = 1 ∧
      (acqRun [w, w, !w] acqInit).taskA = AcqTask.done r ∧
      (acqRun [w, w, !w] acqInit).taskB = AcqTask.done r ∧
      (acqRun [w, w, !w] acqInit).pool = some r := by
  cases w <;> exact ⟨0, by decide⟩

/-! ## C4 -/

/-- C4 counterexample: in a pool with expired ids `"p"`, `"a"`, `"b"`
(in insertion order) where unloading `"a"` raises, the sweep tick does
not evict `"b"`: the exception aborts the per-tick eviction loop, so
`"b"` stays in both maps even though its idle time exceeds the
keep-alive duration and its own unload would have succeeded. -/
theorem sweep_failure_blocks_other_ids_counterexample :
    findEntry "b" (cleanupTick (fun id => id == "a") 1000 300
        ⟨[("p", 1), ("a", 2), ("b", 3)], [("p", 0), ("a", 0), ("b", 0)]⟩).adapters = some 3 ∧
      findEntry "b" (cleanupTick (fun id => id == "a") 1000 300
        ⟨[("p", 1), ("a", 2), ("b", 3)], [("p", 0), ("a", 0), ("b", 0)]⟩).lastUsed = some 0 := by
  decide

/-- C4 amended: when unloading one id fails, ids earlier in the tick's
eviction order are still evicted (here `"p"`), but the remaining ids of
the same tick are skipped; the exception is swallowed by the
`except Exception: pass` handler, so the sweep loop itself keeps running —
every further tick is well-defined, and while the failure persists the
skipped ids stay resident. -/
theorem sweep_failure_swallowed_loop_continues :
    (cleanupTick (fun id => id == "a") 1000 300
        ⟨[("p", 1), ("a", 2), ("b", 3)], [("p", 0), ("a", 0), ("b", 0)]⟩ =
      ⟨[("a", 2), ("b", 3)], [("a", 0), ("b", 0)]⟩) ∧
    ∀ (times : List Int), (∀ t ∈ times, (300 : Int) < t) →
      cleanupRun (fun id => id == "a") 300 times ⟨[("a", 2), ("b", 3)], [("a", 0), ("b", 0)]⟩ =
        ⟨[("a", 2), ("b", 3)], [("a", 0), ("b", 0)]⟩ := by
  refine ⟨by decide, ?_⟩
  intro times h
  induction times with
  | nil => rfl
  | cons now rest ih =>
    have hnow : (300 : Int) < now := h now (List.mem_cons_self _ _)
    have htick : cleanupTick (fun id => id == "a") now 300
        ⟨[("a", 2), ("b", 3)], [("a", 0), ("b", 0)]⟩ =
        ⟨[("a", 2), ("b", 3)], [("a", 0), ("b", 0)]⟩ := by
      have hd : decide ((300 : Int) < now - 0) = true := by
        rw [Int.sub_zero]
        exact decide_eq_true hnow
      simp [cleanupTick, expiredIds, List.filter_cons, hd, hnow, evictExpired, findEntry]
    rw [cleanupRun, htick]
    exact ih (fun t ht => h t (List.mem_cons_of_mem _ ht))

/-- Witness for the amended C4 at two concrete further clock readings. -/
theorem sweep_failure_swallowed_loop_continues_witness :
    (∀ t ∈ [(400 : Int), 1000], (300 : Int) < t) ∧
      cleanupRun (fun id => id == "a") 300 [400, 1000]
          ⟨[("a", 2), ("b", 3)], [("a", 0), ("b", 0)]⟩ =
        ⟨[("a", 2), ("b", 3)], [("a", 0), ("b", 0)]⟩ :=
  ⟨by decide, sweep_failure_swallowed_loop_continues.2 [400, 1000] (by decide)⟩

/-! ## C5 -/

/-- C5 counterexample: when the engine's unload raises during eviction,
the evicted id's entry is not removed — the `del` statements come after
the `await adapter.unload_model()`, so a pool with the single expired id
`"m"` is left completely unchanged by the tick, in both the handle map
and the last-used map. -/
theorem unload_failure_entry_not_removed_counterexample :
    cleanupTick (fun _ => true) 1000 300 ⟨[("m", 7)], [("m", 0)]⟩ =
        ⟨[("m", 7)], [("m", 0)]⟩ ∧
      findEntry "m" (cleanupTick (fun _ => true) 1000 300
        ⟨[("m", 7)], [("m", 0)]⟩).adapters = some 7 ∧
      findEntry "m" (cleanupTick (fun _ => true) 1000 300
        ⟨[("m", 7)], [("m", 0)]⟩).lastUsed = some 0 := by decide

/-- C5 amended: for a pool holding a single expired id, the sweep removes
the entry from both maps exactly when `unload_model` returns normally;
when `unload_model` raises, the entry remains in both maps (a phantom
reservation retried on later ticks). -/
theorem unload_failure_entry_remains (id : String) (inst : Nat) (t now keepAlive : Int)
    (fails : String → Bool) (hexp : keepAlive < now - t) :
    (fails id = true →
      cleanupTick fails now keepAlive ⟨[(id, inst)], [(id, t)]⟩ = ⟨[(id, inst)], [(id, t)]⟩) ∧
    (fails id = false →
      cleanupTick fails now keepAlive ⟨[(id, inst)], [(id, t)]⟩ = ⟨[], []⟩) := by
  have hd : decide (keepAlive < now - t) = true := decide_eq_true hexp
  constructor <;> intro hf <;>
    simp [cleanupTick, expiredIds, hd, evictExpired, findEntry, hf, removeEntry]

/-- Witness for the amended C5 at a concrete expired id whose unload
raises. -/
theorem unload_failure_entry_remains_witness :
    (300 : Int) < 400 - 0 ∧
      cleanupTick (fun _ => true) 400 300 ⟨[("m2", 9)], [("m2", 0)]⟩ =
        ⟨[("m2", 9)], [("m2", 0)]⟩ :=
  ⟨by decide, (unload_failure_entry_remains "m2" 9 0 400 300 (fun _ => true) (by decide)).1 rfl⟩

/-! ## C7 -/

/-- C7: `delete_model` on a model whose storage directory exists removes
the storage directory (a subsequent `get_model_path` is `None`) and the
metadata cache document, and returns `true`; on a model whose storage
directory does not exist it returns `false` without raising and leaves
the filesystem untouched. -/
theorem delete_model_existing_and_missing (fs : RegistryFS) (modelId : String) :
    (safeId modelId ∈ fs.modelDirs →
      (delete_model fs modelId).1 = true ∧
      get_model_path (delete_model fs modelId).2 modelId = none ∧
      safeId modelId ∉ (delete_model fs modelId).2.metadataDocs) ∧
    (safeId modelId ∉ fs.modelDirs → delete_model fs modelId = (false, fs)) := by
  constructor
  · intro h
    refine ⟨?_, ?_, ?_⟩
    · simp [delete_model, h]
    · simp [delete_model, h, get_model_path, List.mem_filter]
    · simp only [delete_model, if_pos h, metadataCacheDelete]
      by_cases hdoc : safeId modelId ∈ fs.metadataDocs <;>
        simp [hdoc, List.mem_filter]
  · intro h
    simp [delete_model, h]

/-- Witness for C7: deleting the stored `"demo/tiny"` model, and deleting
it from an empty filesystem. -/
theorem delete_model_existing_and_missing_witness :
    ((delete_model ⟨["demo--tiny"], ["demo--tiny"]⟩ "demo/tiny").1 = true ∧
      get_model_path (delete_model ⟨["demo--tiny"], ["demo--tiny"]⟩ "demo/tiny").2
        "demo/tiny" = none ∧
      safeId "demo/tiny" ∉
        (delete_model ⟨["demo--tiny"], ["demo--tiny"]⟩ "demo/tiny").2.metadataDocs) ∧
    delete_model ⟨[], []⟩ "demo/tiny" = (false, ⟨[], []⟩) :=
  ⟨(delete_model_existing_and_missing _ _).1 (by decide),
    (delete_model_existing_and_missing _ _).2 (by decide)⟩

/-! ## C8 -/

/-- C8: invoking a service for a known model id with no local storage
directory fails with the not-downloaded error, whose message names the
model id and the download endpoint, and leaves the pool state (handle
map, last-used map, instance counter) unchanged — in the transcription
service, and in the TTS service for a non-`"pyttsx3"` id whose
descriptor declares the TTS task. -/
theorem acquire_not_downloaded_error (env : ServiceEnv) (now : Int) (s : SvcPoolState)
    (modelId : String) (hknown : modelId ∈ env.knownModels)
    (hpath : get_model_path env.fs modelId = none) :
    transcribeAcquire env now s modelId = (Except.error (notDownloadedMsg modelId), s) ∧
    (modelId ≠ "pyttsx3" → env.taskOf modelId = ModelTask.tts →
      synthesizeAcquire env now s modelId = (Except.error (notDownloadedMsg modelId), s)) ∧
    notDownloadedMsg modelId =
      "Model " ++ modelId ++ " not downloaded. Download it first: POST /v1/models/"
        ++ modelId ++ "/download" := by
  refine ⟨?_, ?_, rfl⟩
  · simp [transcribeAcquire, hknown, hpath]
  · intro hp ht
    simp [synthesizeAcquire, hp, hknown, ht, hpath]

/-- Witness for C8: a known TTS model with no local directory, against an
empty pool. -/
theorem acquire_not_downloaded_error_witness :
    ("demo/x" ∈ ["demo/x"] ∧ get_model_path (⟨[], []⟩ : RegistryFS) "demo/x" = none) ∧
      transcribeAcquire ⟨["demo/x"], ⟨[], []⟩, fun _ => ModelTask.tts⟩ 0 ⟨[], [], 0⟩
          "demo/x" = (Except.error (notDownloadedMsg "demo/x"), ⟨[], [], 0⟩) ∧
      ("demo/x" ≠ "pyttsx3" →
        (⟨["demo/x"], ⟨[], []⟩, fun _ => ModelTask.tts⟩ : ServiceEnv).taskOf "demo/x" =
          ModelTask.tts →
        synthesizeAcquire ⟨["demo/x"], ⟨[], []⟩, fun _ => ModelTask.tts⟩ 0 ⟨[], [], 0⟩
          "demo/x" = (Except.error (notDownloadedMsg "demo/x"), ⟨[], [], 0⟩)) ∧
      notDownloadedMsg "demo/x" =
        "Model " ++ "demo/x" ++ " not downloaded. Download it first: POST /v1/models/"
          ++ "demo/x" ++ "/download" :=
  ⟨⟨by decide, by decide⟩,
    acquire_not_downloaded_error ⟨["demo/x"], ⟨[], []⟩, fun _ => ModelTask.tts⟩ 0
      ⟨[], [], 0⟩ "demo/x" (by decide) (by decide)⟩

/-! ## C9 -/

/-- C9: when the metadata cache document exists on disk but cannot be
read (`OSError`) or fails to parse as JSON (`json.JSONDecodeError`),
`ModelMetadataCache.get` returns `None` — a cache miss, not a raised
error. -/
theorem metadata_get_failure_is_cache_miss {α : Type} (files : String → CacheFile α)
    (modelId : String)
    (h : files (safeId modelId ++ ".json") = CacheFile.unreadable ∨
      files (safeId modelId ++ ".json") = CacheFile.malformed) :
    metadataCacheGet files modelId = none := by
  rcases h with h | h <;> simp [metadataCacheGet, h]

/-- Witness for C9 at a concrete id with a malformed document. -/
theorem metadata_get_failure_is_cache_miss_witness :
    ((fun _ => (CacheFile.malformed : CacheFile Nat)) (safeId "demo/tiny" ++ ".json") =
        CacheFile.unreadable ∨
      (fun _ => (CacheFile.malformed : CacheFile Nat)) (safeId "demo/tiny" ++ ".json") =
        CacheFile.malformed) ∧
      metadataCacheGet (fun _ => (CacheFile.malformed : CacheFile Nat)) "demo/tiny" = none :=
  ⟨Or.inr rfl, metadata_get_failure_is_cache_miss _ _ (Or.inr rfl)⟩

/-! ## C10 -/

/-- C10: `list_models` never returns an entry derived from the storage
root's `"hf"` subdirectory — no listed model has id `"hf"` (the only
directory name decoding to that id) or local path `"hf"` — while with no
task and no status filter every other immediate subdirectory is
enumerated, in storage order. -/
theorem list_models_never_lists_hf (entries : List StorageEntry)
    (cache : String → Option CachedMeta) (task statusFilter : Option String) :
    (∀ m ∈ list_models entries cache task statusFilter, m.id ≠ "hf" ∧ m.localPath ≠ "hf") ∧
    (list_models entries cache none none).map (fun m => m.id) =
      (entries.filter (fun e => e.isDir && e.name != "hf")).map
        (fun e => decodeDirName e.name) := by
  constructor
  · intro m hm
    have hscan : m ∈ listModelsScan cache task entries := by
      cases statusFilter with
      | none => simpa [list_models] using hm
      | some sf =>
        simp only [list_models] at hm
        split at hm
        · exact absurd hm (List.not_mem_nil m)
        · exact hm
    rcases listModelsScan_mem cache task entries m hscan with ⟨e, _, _, hname, hid, hpath⟩
    constructor
    · intro hm_id
      exact hname (decodeDirName_eq_hf (hid.symm.trans hm_id))
    · intro hp
      exact hname (hpath.symm.trans hp)
  · exact listModelsScan_map_id cache entries

/-- Witness for C10: a storage root holding the `"hf"` cache directory
and one model directory; the model is listed, the `"hf"` entry is not. -/
theorem list_models_never_lists_hf_witness :
    fallbackModel "a/b" "a--b" 5 ∈
        list_models [⟨"hf", true, 9⟩, ⟨"a--b", true, 5⟩] (fun _ => none) none none ∧
      (fallbackModel "a/b" "a--b" 5).id ≠ "hf" ∧
      (fallbackModel "a/b" "a--b" 5).localPath ≠ "hf" :=
  ⟨by decide,
    (list_models_never_lists_hf [⟨"hf", true, 9⟩, ⟨"a--b", true, 5⟩] (fun _ => none)
      none none).1 _ (by decide)⟩

end Vocal
